import Mathlib

/-!
Verification of the consensus-and-escalation workflow of the dialectical
resolution engine (source: main.py).

Modelling conventions:
* Python strings are embedded as `List Char`.
* The external generation collaborator (model loading, sampling) and the chat
  templating function are out of core scope and are passed in as parameters;
  a generation call is `gen promptText temp maxTokens` returning
  `Except GenError Str`, mirroring a call that can fail.
* Temperatures are floating-point in the source (0.6, 0.7, 0.9, 0.1, 0.0) but
  no control flow depends on their numeric value, so they are carried in
  tenths as naturals (6, 7, 9, 1, 0) to stay in exact arithmetic.
* Each function that performs generation calls additionally returns the list
  of calls it made, in order, so that call counts and call payloads are
  observable in theorems.
* `Char.toLower`, `Char.toUpper` and `Char.isWhitespace` stand in for the
  Python `str.lower`, `str.upper` and `str.strip` character classes; they
  agree on the ASCII texts involved here.
-/

namespace DTTS

abbrev Str := List Char

abbrev GenError := Str

/-- Python `s.strip()`: remove leading and trailing whitespace. -/
def pyStrip (l : Str) : Str :=
  ((l.dropWhile Char.isWhitespace).reverse.dropWhile Char.isWhitespace).reverse

/-- Python `s[-n:]`: the trailing suffix of length at most `n`. -/
def takeLast (n : Nat) (l : Str) : Str := l.drop (l.length - n)

/-- Python `sub in s`: `pat` occurs contiguously somewhere in the text. -/
def containsSub (pat : Str) : Str → Bool
  | [] => pat.isEmpty
  | c :: rest => pat.isPrefixOf (c :: rest) || containsSub pat rest

/-- Python `text.rfind(pat)`: the largest index at which `pat` occurs in
`text`, `none` when it does not occur (Python returns -1 there). -/
def rfindSub (text pat : Str) : Option Nat :=
  ((List.range (text.length + 1)).filter (fun i => pat.isPrefixOf (text.drop i))).getLast?

/-- The fixed open marker searched for by the extractor. -/
def start_marker : Str := "\\boxed\x7b".toList

/-- Net brace balance of a text: open braces count +1, close braces -1. -/
def netBal : Str → Int
  | [] => 0
  | c :: l => (if c = '\x7b' then 1 else if c = '\x7d' then -1 else 0) + netBal l

/-- The while loop of `extract_answer`: starting at absolute position `i`
with the given balance, consume characters (open brace increments, close
brace decrements) until the balance is 0 or the text ends; the result is the
final value of `end_idx`. -/
def scanLoop : Str → Nat → Nat → Nat
  | [], _, i => i
  | c :: rest, balance, i =>
    if balance = 0 then i
    else scanLoop rest (if c = '\x7b' then balance + 1 else if c = '\x7d' then balance - 1 else balance) (i + 1)

/-- `extract_answer` from main.py: find the last occurrence of the open
marker; if absent return the stripped trailing 50 characters; otherwise
brace-balance scan from just after the marker (balance seeded at 1) and
return the slice `text[content_start : end_idx - 1]`, stripped. -/
def extract_answer (text : Str) : Str :=
  match rfindSub text start_marker with
  | none => pyStrip (takeLast 50 text)
  | some start_idx =>
    let content_start := start_idx + start_marker.length
    let end_idx := scanLoop (text.drop content_start) 1 content_start
    pyStrip ((text.drop content_start).take (end_idx - 1 - content_start))

/-- One chat message, as the dicts `{role, content}` in main.py. -/
structure Message where
  role : Str
  content : Str
deriving DecidableEq

/-- One generation call issued to the collaborator, recorded with the
messages it was built from, its temperature (in tenths) and its token budget. -/
structure GenCall where
  messages : List Message
  temp : Nat
  maxTokens : Nat
deriving DecidableEq

/-- Which branch produced the final answer. -/
inductive Provenance
  | consensus
  | arbiter
deriving DecidableEq

/-- The final answer of a run together with its provenance. -/
structure Verdict where
  answer : Str
  provenance : Provenance
deriving DecidableEq

def MAX_TOKENS : Nat := 4096

def userRole : Str := "user".toList

def sysRole : Str := "system".toList

/-- The shared system preamble of the three personas (main.py line 125). -/
def system_instruction : Str :=
  ("\n    [THE AXIOM]\n    The Universe derived itself by logical necessity—the Contradiction (+/-), simultaneously creating Space (between + and -) and Time (to reconcile).\n    \n    [PROTOCOL]\n    1. IGNORE training memory.\n    2. DERIVE everything from specific constraints by logical necessity - the Contradiction (+/-).\n    ").toList

/-- Suffix appended to the prompt for Trace 2 (main.py line 148). -/
def causalCheckSuffix : Str :=
  ("\n\n[PROTOCOL: CAUSAL CHECK]\n1. Deconstruct the timeline into atomic events.\n2. Identify any constraint that breaks the standard rule.\n3. Derive the answer strictly. CRITICAL: The very last line of your response must be ONLY the final value inside \\boxed\x7b\x7d. Do not write text after the box.]").toList

/-- Suffix appended to the prompt for Trace 3 (main.py line 152). -/
def redTeamSuffix : Str :=
  ("\n\n[PROTOCOL: RED TEAM]\nAssume the intuitive answer (the one most people would give) is a TRAP.\nYour goal is to vigorously argue for the OPPOSITE conclusion.\nFind the specific variable that invalidates the common intuition.\nProve why the \x27Obvious\x27 is False. CRITICAL: The very last line of your response must be ONLY the final value inside \\boxed\x7b\x7d. Do not write text after the box.]").toList

def believer (prompt : Str) : Message := ⟨userRole, prompt⟩

def logician (prompt : Str) : Message := ⟨userRole, prompt ++ causalCheckSuffix⟩

def contrarian (prompt : Str) : Message := ⟨userRole, prompt ++ redTeamSuffix⟩

/-- The message list of one persona call: shared system preamble, then the
persona user message (main.py line 160). -/
def personaMsgs (p : Message) : List Message := [⟨sysRole, system_instruction⟩, p]

/-- Literal part of the arbiter prompt before Trace 1 (main.py line 184). -/
def arbiterPre : Str :=
  ("\n    [THE LOGIC OF NECESSITY]\n    \"The Universe derived itself by logical necessity—the Contradiction (+/-), simultaneously creating Space (between + and -) and Time (to reconcile)\"\n\n    [THE TRIAL]\n    I have three perspectives on a problem. \n    One relies on Intuition (Memory). One relies on Validation, and one relies on Counterfactuals (Logic).\n    \n    YOUR TASK:\n    1. Ignore the \"Vote Count\" (Majority does not mean Truth).\n    2. Examine the Causal Link in each argument.\n    3. TRACE THE LOGIC: Does the \"Accident\" condition filter the sample space?\n       - If Intent matters, switching works.\n       - If Randomness dominates, switching is neutral.\n       - WHICH CONDITION APPLIES HERE?\n    \n    Trace 1 (Believer): ").toList

/-- Literal part of the arbiter prompt between Trace 1 and Trace 2. -/
def arbiterMid1 : Str := ("\n    Trace 2 (Logician): ").toList

/-- Literal part of the arbiter prompt between Trace 2 and Trace 3. -/
def arbiterMid2 : Str := ("\n    Trace 3 (Contrarian): ").toList

/-- Literal part of the arbiter prompt after Trace 3. -/
def arbiterPost : Str :=
  ("\n\n    VERDICT:\n    Derive the Single Necessary Truth. Put the answer in \\boxed\x7b\x7d.\n    ").toList

/-- The arbiter meta-prompt, embedding the three full raw traces. -/
def arbiter_prompt (t0 t1 t2 : Str) : Str :=
  arbiterPre ++ t0 ++ arbiterMid1 ++ t1 ++ arbiterMid2 ++ t2 ++ arbiterPost

def arbiterMsgs (t0 t1 t2 : Str) : List Message := [⟨userRole, arbiter_prompt t0 t1 t2⟩]

/-- Python `a.replace(" ", "")`: remove every space character. -/
def removeSpaces (a : Str) : Str := a.filter (fun c => c ≠ ' ')

/-- Normalization as the specification words it for comparing extracted
answers: case-folded and whitespace-stripped. Declared only to compare the
specified CHECKING normalization against the implemented one. -/
def specNormalize (a : Str) : Str := pyStrip (a.map Char.toLower)

/-- Literal part of the equivalence-judge prompt before Value A. -/
def checkPre : Str := ("\n    Are the following two math results equivalent?\n    Value A: ").toList

/-- Literal part of the equivalence-judge prompt between the two values. -/
def checkMid : Str := ("\n    Value B: ").toList

/-- Literal part of the equivalence-judge prompt after Value B. -/
def checkPost : Str := ("\n    \n    Answer only YES or NO.\n    ").toList

/-- The judge prompt of `check_equivalence`, embedding both raw values. -/
def check_prompt (val_a val_b : Str) : Str :=
  checkPre ++ val_a ++ checkMid ++ val_b ++ checkPost

def judgeMsgs (val_a val_b : Str) : List Message := [⟨userRole, check_prompt val_a val_b⟩]

def yesToken : Str := "YES".toList

/-- `check_equivalence` from main.py: fast path compares
`val_a.lower().strip()` with `val_b.lower().strip()`; on mismatch one judge
generation call is made (temperature 0.0, max_tokens 10) and the result is
whether "YES" occurs in the upper-cased response. -/
def check_equivalence (tmpl : List Message → Bool → Str)
    (gen : Str → Nat → Nat → Except GenError Str) (val_a val_b : Str) :
    Except GenError Bool × List GenCall :=
  let a := pyStrip (val_a.map Char.toLower)
  let b := pyStrip (val_b.map Char.toLower)
  if a = b then (Except.ok true, [])
  else
    let msgs := judgeMsgs val_a val_b
    let call : GenCall := ⟨msgs, 0, 10⟩
    match gen (tmpl msgs true) 0 10 with
    | Except.error e => (Except.error e, [call])
    | Except.ok output => (Except.ok (containsSub yesToken (output.map Char.toUpper)), [call])

/-- The three persona generation calls of a run, in source order. -/
def personaCalls (prompt : Str) : List GenCall :=
  [⟨personaMsgs (believer prompt), 6, MAX_TOKENS⟩,
   ⟨personaMsgs (logician prompt), 7, MAX_TOKENS⟩,
   ⟨personaMsgs (contrarian prompt), 9, MAX_TOKENS⟩]

/-- `run_dialectical_tts` from main.py: generate the three persona traces in
order (temperatures 0.6, 0.7, 0.9), extract an answer from each, compare the
space-stripped answers as a set; on a single unique value return the first
answer (consensus), otherwise issue one arbiter call (temperature 0.1) on a
prompt embedding all three raw traces and return the extracted arbiter
answer. A collaborator failure propagates immediately. The second component
records the generation calls made, in order. -/
def run_dialectical_tts (tmpl : List Message → Bool → Str)
    (gen : Str → Nat → Nat → Except GenError Str) (prompt : Str) :
    Except GenError Verdict × List GenCall :=
  let m0 := personaMsgs (believer prompt)
  let m1 := personaMsgs (logician prompt)
  let m2 := personaMsgs (contrarian prompt)
  match gen (tmpl m0 true) 6 MAX_TOKENS with
  | Except.error e => (Except.error e, [⟨m0, 6, MAX_TOKENS⟩])
  | Except.ok out0 =>
    match gen (tmpl m1 true) 7 MAX_TOKENS with
    | Except.error e => (Except.error e, [⟨m0, 6, MAX_TOKENS⟩, ⟨m1, 7, MAX_TOKENS⟩])
    | Except.ok out1 =>
      match gen (tmpl m2 true) 9 MAX_TOKENS with
      | Except.error e =>
        (Except.error e, [⟨m0, 6, MAX_TOKENS⟩, ⟨m1, 7, MAX_TOKENS⟩, ⟨m2, 9, MAX_TOKENS⟩])
      | Except.ok out2 =>
        let answers := [extract_answer out0, extract_answer out1, extract_answer out2]
        if ((answers.map removeSpaces).dedup).length = 1 then
          (Except.ok ⟨extract_answer out0, Provenance.consensus⟩, personaCalls prompt)
        else
          let am := arbiterMsgs out0 out1 out2
          match gen (tmpl am true) 1 MAX_TOKENS with
          | Except.error e => (Except.error e, personaCalls prompt ++ [⟨am, 1, MAX_TOKENS⟩])
          | Except.ok fo =>
            (Except.ok ⟨extract_answer fo, Provenance.arbiter⟩,
             personaCalls prompt ++ [⟨am, 1, MAX_TOKENS⟩])

/-! Witness fixtures: a trivial templating collaborator and deterministic
generation collaborators keyed on the temperature of the call. -/

def tmplW : List Message → Bool → Str := fun _ _ => []

def genYes : Str → Nat → Nat → Except GenError Str := fun _ _ _ => Except.ok ("yes sir".toList)

def genW3 : Str → Nat → Nat → Except GenError Str := fun _ t _ =>
  if t = 6 then Except.ok ("1/3".toList)
  else if t = 7 then Except.ok ("2/3".toList)
  else if t = 9 then Except.ok ("1/2".toList)
  else Except.ok ("2/3".toList)

def genWU : Str → Nat → Nat → Except GenError Str := fun _ _ _ => Except.ok ("1/3".toList)

def genBoom : Str → Nat → Nat → Except GenError Str := fun _ t _ =>
  if t = 6 then Except.ok ("\\boxed\x7b1/3\x7d".toList) else Except.error ("boom".toList)

def genCase : Str → Nat → Nat → Except GenError Str := fun _ t _ =>
  if t = 6 then Except.ok ("A".toList)
  else if t = 7 then Except.ok ("a".toList)
  else if t = 9 then Except.ok ("a".toList)
  else Except.ok ("x".toList)

def genCase2 : Str → Nat → Nat → Except GenError Str := fun _ t _ =>
  if t = 6 then Except.ok ("B".toList)
  else if t = 7 then Except.ok ("b".toList)
  else if t = 9 then Except.ok ("b".toList)
  else Except.ok ("z".toList)

/-! Helper lemmas. -/

theorem containsSub_nil_pat (l : Str) : containsSub [] l = true := by
  induction l with
  | nil => rfl
  | cons c rest ih => simp [containsSub, List.isPrefixOf]

theorem isPrefixOf_append_self (p t : Str) : p.isPrefixOf (p ++ t) = true := by
  induction p with
  | nil => simp [List.isPrefixOf]
  | cons c rest ih => simp [List.isPrefixOf, ih]

theorem containsSub_append_self (p t : Str) : containsSub p (p ++ t) = true := by
  cases p with
  | nil => exact containsSub_nil_pat t
  | cons c rest => simp [containsSub, isPrefixOf_append_self (c :: rest) t]

theorem containsSub_middle (p s t : Str) : containsSub p (s ++ p ++ t) = true := by
  induction s with
  | nil => simpa using containsSub_append_self p t
  | cons c s ih =>
    cases h : s ++ p ++ t with
    | nil => simp [h] at ih; simp [List.cons_append, h, containsSub, ih]
    | cons d rest => simp [List.cons_append, h, containsSub, h ▸ ih]

theorem dedup_single (x : Str) : ([x] : List Str).dedup = [x] := by
  rw [List.dedup_cons_of_not_mem (List.not_mem_nil x), List.dedup_nil]

theorem dedup3 (a b c : Str) : ([a, b, c].dedup.length = 1) ↔ (a = b ∧ a = c) := by
  by_cases hbc : b = c
  · subst hbc
    by_cases hab : a = b
    · subst hab
      rw [List.dedup_cons_of_mem (List.mem_cons_self a [a]),
        List.dedup_cons_of_mem (List.mem_cons_self a []), dedup_single]
      simp
    · rw [List.dedup_cons_of_not_mem (by simp [hab]),
        List.dedup_cons_of_mem (List.mem_cons_self b []), dedup_single]
      simp [hab]
  · have hd2 : ([b, c] : List Str).dedup = [b, c] := by
      rw [List.dedup_cons_of_not_mem (by simp [hbc]), dedup_single]
    by_cases hmem : a ∈ [b, c]
    · rw [List.dedup_cons_of_mem hmem, hd2]
      constructor
      · intro h; simp at h
      · rintro ⟨h1, h2⟩; exact absurd (h1.symm.trans h2) hbc
    · rw [List.dedup_cons_of_not_mem hmem, hd2]
      constructor
      · intro h; simp at h
      · rintro ⟨h1, h2⟩; exact absurd (by simp [h1] : a ∈ [b, c]) hmem

theorem scanLoop_zero (l : Str) (i : Nat) : scanLoop l 0 i = i := by
  cases l with
  | nil => rfl
  | cons c rest => simp [scanLoop]

theorem scanLoop_append (c rest : Str) (b i : Nat)
    (h : ∀ k, k < c.length → 0 < (b : Int) + netBal (c.take k)) :
    scanLoop (c ++ rest) b i = scanLoop rest ((b : Int) + netBal c).toNat (i + c.length) := by
  induction c generalizing b i with
  | nil => simp [netBal]
  | cons ch c ih =>
    have hb : 0 < b := by
      have h0 := h 0 (by simp)
      simp [netBal] at h0
      exact_mod_cast h0
    rw [List.cons_append, scanLoop, if_neg (by omega)]
    have hcast : ((if ch = '\x7b' then b + 1 else if ch = '\x7d' then b - 1 else b : Nat) : Int)
        = (b : Int) + (if ch = '\x7b' then 1 else if ch = '\x7d' then -1 else 0) := by
      by_cases h1 : ch = '\x7b'
      · simp [h1]
      · by_cases h2 : ch = '\x7d'
        · simp [h1, h2]; omega
        · simp [h1, h2]
    have hyp : ∀ k, k < c.length →
        0 < ((if ch = '\x7b' then b + 1 else if ch = '\x7d' then b - 1 else b : Nat) : Int) + netBal (c.take k) := by
      intro k hk
      have hk1 := h (k + 1) (by simp [List.length_cons]; omega)
      rw [hcast]
      have ht : netBal ((ch :: c).take (k + 1)) =
          (if ch = '\x7b' then 1 else if ch = '\x7d' then -1 else 0) + netBal (c.take k) := by
        rw [List.take_succ_cons]; rfl
      rw [ht] at hk1
      linarith
    rw [ih _ (i + 1) hyp]
    have harg : ((if ch = '\x7b' then b + 1 else if ch = '\x7d' then b - 1 else b : Nat) : Int) + netBal c
        = (b : Int) + netBal (ch :: c) := by
      rw [hcast]
      show _ = (b : Int) + ((if ch = '\x7b' then 1 else if ch = '\x7d' then -1 else 0) + netBal c)
      ring
    rw [harg]
    congr 1
    rw [List.length_cons]
    omega

theorem pyStrip_eq_nil_iff (l : Str) : pyStrip l = [] ↔ ∀ c ∈ l, c.isWhitespace := by
  unfold pyStrip
  rw [List.reverse_eq_nil_iff, List.dropWhile_eq_nil_iff]
  constructor
  · intro h c hc
    by_cases hw : c.isWhitespace
    · exact hw
    · exfalso
      have hsplit := List.takeWhile_append_dropWhile (p := Char.isWhitespace) (l := l)
      rw [← hsplit] at hc
      rcases List.mem_append.mp hc with h1 | h2
      · exact hw (List.mem_takeWhile_imp h1)
      · exact hw (h c (by simpa using h2))
  · intro h c hc
    rw [List.mem_reverse] at hc
    exact h c (List.IsSuffix.mem hc (List.dropWhile_suffix Char.isWhitespace))

theorem containsSub_append_left (p s t : Str) (h : containsSub p t = true) :
    containsSub p (s ++ t) = true := by
  induction s with
  | nil => simpa using h
  | cons c s ih => simp [List.cons_append, containsSub, ih]

theorem contains_false_prefixOf (pat l : Str) (h : containsSub pat l = false) :
    ∀ i, pat.isPrefixOf (l.drop i) = false := by
  induction l with
  | nil =>
    intro i
    cases pat with
    | nil => simp [containsSub, List.isEmpty] at h
    | cons c rest => simp [List.isPrefixOf]
  | cons c rest ih =>
    rw [containsSub, Bool.or_eq_false_iff] at h
    intro i
    cases i with
    | zero => exact h.1
    | succ j => rw [List.drop_succ_cons]; exact ih h.2 j

theorem rfindSub_eq_none (text pat : Str) (h : containsSub pat text = false) :
    rfindSub text pat = none := by
  unfold rfindSub
  rw [List.getLast?_eq_none_iff, List.filter_eq_nil_iff]
  intro i _
  intro hp
  have htrue : pat.isPrefixOf (text.drop i) = true := by simpa using hp
  rw [contains_false_prefixOf pat text h i] at htrue
  exact Bool.false_ne_true htrue

theorem extract_eq_of_rfind (text : Str) (idx : Nat)
    (h : rfindSub text start_marker = some idx) :
    extract_answer text = pyStrip ((text.drop (idx + start_marker.length)).take
      (scanLoop (text.drop (idx + start_marker.length)) 1 (idx + start_marker.length)
        - 1 - (idx + start_marker.length))) := by
  unfold extract_answer
  rw [h]

/-! Claim theorems. -/

/-- C4 counterexample: the claimed example output is wrong on the code. The
extractor starts from the LAST occurrence of the open marker, so on
`... \boxed{f(x)=\boxed{2}} trailing` the scan starts after the inner
`\boxed{` and the result is `2`, not `f(x)=\boxed{2}`. -/
theorem extract_nested_marker_cex :
    extract_answer ("... \\boxed\x7bf(x)=\\boxed\x7b2\x7d\x7d trailing".toList) = "2".toList ∧
    ("2".toList : Str) ≠ "f(x)=\\boxed\x7b2\x7d".toList :=
  ⟨by decide, by decide⟩

/-- C4 (amended): when the last marker occurrence is at index `pre.length`
and the content `c` up to the matching close brace is brace-balanced (the
balance seeded at 1 stays positive over every proper prefix of `c` and `c`
has net balance 0), the extractor returns exactly `c`, stripped: balanced
nested plain brace pairs inside `c` are returned whole. -/
theorem extract_balanced_scan (pre c post : Str)
    (hfind : rfindSub (pre ++ start_marker ++ c ++ '\x7d' :: post) start_marker
      = some pre.length)
    (hpos : ∀ k, k < c.length → (0 : Int) < 1 + netBal (c.take k))
    (hbal : netBal c = 0) :
    extract_answer (pre ++ start_marker ++ c ++ '\x7d' :: post) = pyStrip c := by
  rw [extract_eq_of_rfind _ _ hfind]
  have hdrop : (pre ++ start_marker ++ c ++ '\x7d' :: post).drop (pre.length + start_marker.length)
      = c ++ '\x7d' :: post := by
    have : pre ++ start_marker ++ c ++ '\x7d' :: post
        = (pre ++ start_marker) ++ (c ++ '\x7d' :: post) := by
      simp [List.append_assoc]
    rw [this]
    exact List.drop_left' (by rw [List.length_append])
  rw [hdrop]
  have hpos' : ∀ k, k < c.length → 0 < ((1 : Nat) : Int) + netBal (c.take k) := by
    intro k hk
    have := hpos k hk
    push_cast
    linarith
  rw [scanLoop_append c ('\x7d' :: post) 1 (pre.length + start_marker.length) hpos']
  have hone : (((1 : Nat) : Int) + netBal c).toNat = 1 := by
    rw [hbal]
    decide
  rw [hone]
  have hstep : scanLoop ('\x7d' :: post) 1 (pre.length + start_marker.length + c.length)
      = pre.length + start_marker.length + c.length + 1 := by
    rw [scanLoop, if_neg (by omega)]
    simpa using scanLoop_zero post (pre.length + start_marker.length + c.length + 1)
  rw [hstep]
  have harith : pre.length + start_marker.length + c.length + 1 - 1
      - (pre.length + start_marker.length) = c.length := by omega
  rw [harith, List.take_left' rfl]

/-- C5 counterexample: on a never-closing scan the code returns the slice
`text[content_start : end_idx - 1]` with `end_idx = len(text)`, which drops
the final character: `extract("\boxed{abc")` is `"ab"`, not the claimed
`"abc"` (everything after the marker, stripped). -/
theorem extract_unbalanced_cex :
    extract_answer ("\\boxed\x7babc".toList) = "ab".toList ∧
    pyStrip ("abc".toList) = "abc".toList ∧
    ("ab".toList : Str) ≠ "abc".toList :=
  ⟨by decide, by decide, by decide⟩

/-- C5 (amended): when the marker is present and the balance counter stays
positive through the whole remaining text, the scan consumes to end-of-text
without failing and the result is everything after the marker EXCEPT its
final character, stripped. -/
theorem extract_never_closing (text : Str) (idx : Nat)
    (hfind : rfindSub text start_marker = some idx)
    (hpos : ∀ k, k < (text.drop (idx + start_marker.length)).length →
      (0 : Int) < 1 + netBal ((text.drop (idx + start_marker.length)).take k)) :
    extract_answer text = pyStrip ((text.drop (idx + start_marker.length)).dropLast) := by
  rw [extract_eq_of_rfind _ _ hfind]
  have hpos' : ∀ k, k < (text.drop (idx + start_marker.length)).length →
      0 < ((1 : Nat) : Int) + netBal ((text.drop (idx + start_marker.length)).take k) := by
    intro k hk
    have := hpos k hk
    push_cast
    linarith
  have hscan : scanLoop (text.drop (idx + start_marker.length)) 1 (idx + start_marker.length)
      = idx + start_marker.length + (text.drop (idx + start_marker.length)).length := by
    have h := scanLoop_append (text.drop (idx + start_marker.length)) [] 1
      (idx + start_marker.length) hpos'
    simpa using h
  rw [hscan, List.dropLast_eq_take]
  have harith : idx + start_marker.length + (text.drop (idx + start_marker.length)).length - 1
      - (idx + start_marker.length) = (text.drop (idx + start_marker.length)).length - 1 := by
    omega
  rw [harith]

/-- C6 counterexample: for the non-empty, marker-free text consisting of
three spaces the fallback `text[-50:].strip()` is empty, refuting the claim
that the result is non-empty for every non-empty input. -/
theorem extract_whitespace_empty_cex :
    extract_answer ("   ".toList) = [] ∧
    ("   ".toList : Str) ≠ [] ∧
    containsSub start_marker ("   ".toList) = false :=
  ⟨by decide, by decide, by decide⟩

/-- C6 (amended): on marker-free non-empty text the extractor returns the
stripped trailing 50-character suffix; that result is empty exactly when the
trailing suffix is all whitespace (so it can be empty for non-empty input). -/
theorem extract_no_marker (text : Str)
    (hnm : containsSub start_marker text = false) (_hne : text ≠ []) :
    extract_answer text = pyStrip (takeLast 50 text) ∧
    (extract_answer text = [] ↔ ∀ c ∈ takeLast 50 text, c.isWhitespace) := by
  have h1 : rfindSub text start_marker = none := rfindSub_eq_none text start_marker hnm
  have h2 : extract_answer text = pyStrip (takeLast 50 text) := by
    unfold extract_answer
    rw [h1]
  exact ⟨h2, by rw [h2]; exact pyStrip_eq_nil_iff (takeLast 50 text)⟩

/-- C7: the equivalence check on equal inputs succeeds on the fast path
(lowercase-and-strip equality) and issues zero collaborator calls, for every
templating function and every collaborator. -/
theorem check_equivalence_refl (tmpl : List Message → Bool → Str)
    (gen : Str → Nat → Nat → Except GenError Str) (a : Str) :
    check_equivalence tmpl gen a a = (Except.ok true, []) := by
  unfold check_equivalence
  simp

/-- C8: when the fast path fails, exactly one judge call is issued
(temperature 0.0, max_tokens 10, the judge prompt embedding both raw values)
and the result is `true` exactly when the upper-cased response contains the
token YES; any other response, an error aside, yields `false`. -/
theorem check_equivalence_judge (tmpl : List Message → Bool → Str)
    (gen : Str → Nat → Nat → Except GenError Str) (a b : Str)
    (h : pyStrip (a.map Char.toLower) ≠ pyStrip (b.map Char.toLower)) :
    check_equivalence tmpl gen a b =
      ((gen (tmpl (judgeMsgs a b) true) 0 10).map
        (fun output => containsSub yesToken (output.map Char.toUpper)),
       [⟨judgeMsgs a b, 0, 10⟩]) := by
  unfold check_equivalence
  rw [if_neg h]
  cases hg : gen (tmpl (judgeMsgs a b) true) 0 10 with
  | error e => simp [hg, Except.map]
  | ok output => simp [hg, Except.map]

theorem extract_balanced_scan_witness :
    rfindSub ("... ".toList ++ start_marker ++ "f(x)=\x7b2\x7d".toList ++ '\x7d' :: " trailing".toList) start_marker = some ("... ".toList : Str).length ∧
    netBal ("f(x)=\x7b2\x7d".toList) = 0 ∧
    extract_answer ("... ".toList ++ start_marker ++ "f(x)=\x7b2\x7d".toList ++ '\x7d' :: " trailing".toList) = pyStrip ("f(x)=\x7b2\x7d".toList) := by
  refine ⟨by decide, by decide, ?_⟩
  exact extract_balanced_scan ("... ".toList) ("f(x)=\x7b2\x7d".toList) (" trailing".toList)
    (by decide) (by decide) (by decide)

theorem extract_never_closing_witness :
    rfindSub ("\\boxed\x7bxyz".toList) start_marker = some 0 ∧
    extract_answer ("\\boxed\x7bxyz".toList) = pyStrip ((("\\boxed\x7bxyz".toList : Str).drop (0 + start_marker.length)).dropLast) := by
  refine ⟨by decide, ?_⟩
  exact extract_never_closing ("\\boxed\x7bxyz".toList) 0 (by decide) (by decide)

theorem extract_no_marker_witness :
    containsSub start_marker ("no marker here".toList) = false ∧
    extract_answer ("no marker here".toList) = pyStrip (takeLast 50 ("no marker here".toList)) := by
  refine ⟨by decide, ?_⟩
  exact (extract_no_marker ("no marker here".toList) (by decide) (by decide)).1

theorem check_equivalence_judge_witness :
    pyStrip (("1/2".toList : Str).map Char.toLower) ≠ pyStrip (("0.5".toList : Str).map Char.toLower) ∧
    check_equivalence tmplW genYes ("1/2".toList) ("0.5".toList) =
      (Except.ok true, [⟨judgeMsgs ("1/2".toList) ("0.5".toList), 0, 10⟩]) := by
  refine ⟨by decide, ?_⟩
  rw [check_equivalence_judge tmplW genYes ("1/2".toList) ("0.5".toList) (by decide)]
  rfl

/-- The run under three successful persona calls, as a single branching
expression: consensus on a single unique space-stripped answer, otherwise
one arbiter call. -/
theorem run_ok3 (tmpl : List Message → Bool → Str)
    (gen : Str → Nat → Nat → Except GenError Str) (prompt o0 o1 o2 : Str)
    (h0 : gen (tmpl (personaMsgs (believer prompt)) true) 6 MAX_TOKENS = Except.ok o0)
    (h1 : gen (tmpl (personaMsgs (logician prompt)) true) 7 MAX_TOKENS = Except.ok o1)
    (h2 : gen (tmpl (personaMsgs (contrarian prompt)) true) 9 MAX_TOKENS = Except.ok o2) :
    run_dialectical_tts tmpl gen prompt =
      if [removeSpaces (extract_answer o0), removeSpaces (extract_answer o1),
          removeSpaces (extract_answer o2)].dedup.length = 1 then
        (Except.ok ⟨extract_answer o0, Provenance.consensus⟩, personaCalls prompt)
      else
        match gen (tmpl (arbiterMsgs o0 o1 o2) true) 1 MAX_TOKENS with
        | Except.error e =>
          (Except.error e, personaCalls prompt ++ [⟨arbiterMsgs o0 o1 o2, 1, MAX_TOKENS⟩])
        | Except.ok fo =>
          (Except.ok ⟨extract_answer fo, Provenance.arbiter⟩,
           personaCalls prompt ++ [⟨arbiterMsgs o0 o1 o2, 1, MAX_TOKENS⟩]) := by
  unfold run_dialectical_tts
  simp only [h0, h1, h2, List.map_cons, List.map_nil]

/-- C1 counterexample: with persona outputs `A`, `a`, `a` all three answers
case-fold-and-strip to the single value `a`, yet the run escalates to the
arbiter (4 calls, arbiter provenance): the CHECKING stage does not
case-fold. -/
theorem checking_case_fold_cex :
    specNormalize (extract_answer ("A".toList)) = specNormalize (extract_answer ("a".toList)) ∧
    specNormalize (extract_answer ("a".toList)) = specNormalize (extract_answer ("a".toList)) ∧
    (run_dialectical_tts tmplW genCase []).1 = Except.ok ⟨"x".toList, Provenance.arbiter⟩ ∧
    (run_dialectical_tts tmplW genCase []).2.length = 4 :=
  ⟨by decide, rfl, rfl, rfl⟩

/-- C1 (amended): the CHECKING stage normalizes each extracted answer by
removing every space character (no case-folding) and declares consensus
exactly when the three space-stripped answers coincide; on any difference
the arbiter call is made (4 calls total). -/
theorem checking_unanimity (tmpl : List Message → Bool → Str)
    (gen : Str → Nat → Nat → Except GenError Str) (prompt o0 o1 o2 : Str)
    (h0 : gen (tmpl (personaMsgs (believer prompt)) true) 6 MAX_TOKENS = Except.ok o0)
    (h1 : gen (tmpl (personaMsgs (logician prompt)) true) 7 MAX_TOKENS = Except.ok o1)
    (h2 : gen (tmpl (personaMsgs (contrarian prompt)) true) 9 MAX_TOKENS = Except.ok o2) :
    ((run_dialectical_tts tmpl gen prompt).1
        = Except.ok ⟨extract_answer o0, Provenance.consensus⟩
      ↔ (removeSpaces (extract_answer o0) = removeSpaces (extract_answer o1) ∧
         removeSpaces (extract_answer o0) = removeSpaces (extract_answer o2))) ∧
    (¬ (removeSpaces (extract_answer o0) = removeSpaces (extract_answer o1) ∧
        removeSpaces (extract_answer o0) = removeSpaces (extract_answer o2)) →
      (run_dialectical_tts tmpl gen prompt).2.length = 4) := by
  rw [run_ok3 tmpl gen prompt o0 o1 o2 h0 h1 h2]
  by_cases hu : removeSpaces (extract_answer o0) = removeSpaces (extract_answer o1) ∧
      removeSpaces (extract_answer o0) = removeSpaces (extract_answer o2)
  · rw [if_pos ((dedup3 _ _ _).mpr hu)]
    exact ⟨⟨fun _ => hu, fun _ => rfl⟩, fun hne => absurd hu hne⟩
  · rw [if_neg (fun h => hu ((dedup3 _ _ _).mp h))]
    cases hg : gen (tmpl (arbiterMsgs o0 o1 o2) true) 1 MAX_TOKENS with
    | error e => exact ⟨by simp [hu], fun _ => by simp [personaCalls]⟩
    | ok fo => exact ⟨by simp [hu], fun _ => by simp [personaCalls]⟩

theorem checking_unanimity_witness :
    (run_dialectical_tts tmplW genWU []).1
      = Except.ok ⟨extract_answer ("1/3".toList), Provenance.consensus⟩ :=
  (checking_unanimity tmplW genWU [] ("1/3".toList) ("1/3".toList) ("1/3".toList)
    rfl rfl rfl).1.mpr (by decide)

/-- C2 counterexample: with persona outputs `B`, `b`, `b` the three answers
agree after case-folding and stripping, yet the verdict is the arbiter
answer `z` with arbiter provenance after 4 calls, not the first answer `B`
with consensus provenance after 3 calls. -/
theorem consensus_case_fold_cex :
    specNormalize (extract_answer ("B".toList)) = specNormalize (extract_answer ("b".toList)) ∧
    specNormalize (extract_answer ("b".toList)) = specNormalize (extract_answer ("b".toList)) ∧
    (run_dialectical_tts tmplW genCase2 []).1 = Except.ok ⟨"z".toList, Provenance.arbiter⟩ ∧
    (run_dialectical_tts tmplW genCase2 []).2.length = 4 :=
  ⟨by decide, rfl, rfl, rfl⟩

/-- C2 (amended): when the three extracted answers agree after removal of
every space character, the verdict is the un-normalized extracted answer of
the first trace with consensus provenance, and exactly the three persona
calls are made (the arbiter is never called). -/
theorem consensus_first_answer (tmpl : List Message → Bool → Str)
    (gen : Str → Nat → Nat → Except GenError Str) (prompt o0 o1 o2 : Str)
    (h0 : gen (tmpl (personaMsgs (believer prompt)) true) 6 MAX_TOKENS = Except.ok o0)
    (h1 : gen (tmpl (personaMsgs (logician prompt)) true) 7 MAX_TOKENS = Except.ok o1)
    (h2 : gen (tmpl (personaMsgs (contrarian prompt)) true) 9 MAX_TOKENS = Except.ok o2)
    (hagree : removeSpaces (extract_answer o0) = removeSpaces (extract_answer o1) ∧
      removeSpaces (extract_answer o0) = removeSpaces (extract_answer o2)) :
    run_dialectical_tts tmpl gen prompt =
      (Except.ok ⟨extract_answer o0, Provenance.consensus⟩, personaCalls prompt) := by
  rw [run_ok3 tmpl gen prompt o0 o1 o2 h0 h1 h2,
    if_pos ((dedup3 _ _ _).mpr hagree)]

theorem consensus_first_answer_witness :
    run_dialectical_tts tmplW genWU [] =
      (Except.ok ⟨extract_answer ("1/3".toList), Provenance.consensus⟩, personaCalls []) :=
  consensus_first_answer tmplW genWU [] ("1/3".toList) ("1/3".toList) ("1/3".toList)
    rfl rfl rfl (by decide)

/-- C3: on disagreement of the space-stripped answers the arbiter call is
made exactly once (the call trace is the three persona calls plus one
arbiter call), its prompt contains all three raw traces, and the verdict is
the extracted arbiter output with arbiter provenance; on agreement no
arbiter call is made. -/
theorem arbiter_exactly_on_contested (tmpl : List Message → Bool → Str)
    (gen : Str → Nat → Nat → Except GenError Str) (prompt o0 o1 o2 : Str)
    (h0 : gen (tmpl (personaMsgs (believer prompt)) true) 6 MAX_TOKENS = Except.ok o0)
    (h1 : gen (tmpl (personaMsgs (logician prompt)) true) 7 MAX_TOKENS = Except.ok o1)
    (h2 : gen (tmpl (personaMsgs (contrarian prompt)) true) 9 MAX_TOKENS = Except.ok o2) :
    (¬ (removeSpaces (extract_answer o0) = removeSpaces (extract_answer o1) ∧
        removeSpaces (extract_answer o0) = removeSpaces (extract_answer o2)) →
      (run_dialectical_tts tmpl gen prompt).2
          = personaCalls prompt ++ [⟨arbiterMsgs o0 o1 o2, 1, MAX_TOKENS⟩] ∧
      containsSub o0 (arbiter_prompt o0 o1 o2) = true ∧
      containsSub o1 (arbiter_prompt o0 o1 o2) = true ∧
      containsSub o2 (arbiter_prompt o0 o1 o2) = true ∧
      (run_dialectical_tts tmpl gen prompt).1
          = (gen (tmpl (arbiterMsgs o0 o1 o2) true) 1 MAX_TOKENS).map
              (fun fo => ⟨extract_answer fo, Provenance.arbiter⟩)) ∧
    ((removeSpaces (extract_answer o0) = removeSpaces (extract_answer o1) ∧
        removeSpaces (extract_answer o0) = removeSpaces (extract_answer o2)) →
      (run_dialectical_tts tmpl gen prompt).2 = personaCalls prompt) := by
  rw [run_ok3 tmpl gen prompt o0 o1 o2 h0 h1 h2]
  have hc0 : containsSub o0 (arbiter_prompt o0 o1 o2) = true := by
    unfold arbiter_prompt
    simp only [List.append_assoc]
    exact containsSub_append_left _ _ _ (containsSub_append_self _ _)
  have hc1 : containsSub o1 (arbiter_prompt o0 o1 o2) = true := by
    unfold arbiter_prompt
    simp only [List.append_assoc]
    exact containsSub_append_left _ _ _ (containsSub_append_left _ _ _
      (containsSub_append_left _ _ _ (containsSub_append_self _ _)))
  have hc2 : containsSub o2 (arbiter_prompt o0 o1 o2) = true := by
    unfold arbiter_prompt
    simp only [List.append_assoc]
    exact containsSub_append_left _ _ _ (containsSub_append_left _ _ _
      (containsSub_append_left _ _ _ (containsSub_append_left _ _ _
        (containsSub_append_left _ _ _ (containsSub_append_self _ _)))))
  constructor
  · intro hne
    rw [if_neg (fun h => hne ((dedup3 _ _ _).mp h))]
    cases hg : gen (tmpl (arbiterMsgs o0 o1 o2) true) 1 MAX_TOKENS with
    | error e => exact ⟨rfl, hc0, hc1, hc2, by simp [Except.map]⟩
    | ok fo => exact ⟨rfl, hc0, hc1, hc2, by simp [Except.map]⟩
  · intro hagr
    rw [if_pos ((dedup3 _ _ _).mpr hagr)]

theorem arbiter_exactly_on_contested_witness :
    (run_dialectical_tts tmplW genW3 []).2 =
      personaCalls [] ++ [⟨arbiterMsgs ("1/3".toList) ("2/3".toList) ("1/2".toList), 1, MAX_TOKENS⟩] :=
  ((arbiter_exactly_on_contested tmplW genW3 [] ("1/3".toList) ("2/3".toList) ("1/2".toList)
    rfl rfl rfl).1 (by decide)).1

/-- C9 counterexample: when the second persona call fails, the error is
surfaced to the caller unchanged (here the collaborator error `boom`); it is
not wrapped into an error naming the failing persona. -/
theorem generation_error_cex :
    (run_dialectical_tts tmplW genBoom []).1 = Except.error ("boom".toList) ∧
    containsSub ("Believer".toList) ("boom".toList) = false ∧
    containsSub ("Logician".toList) ("boom".toList) = false ∧
    containsSub ("Contrarian".toList) ("boom".toList) = false :=
  ⟨rfl, by decide, by decide, by decide⟩

/-- C9 (amended): a collaborator failure at any persona call or at the
arbiter call aborts the whole run with that very error surfaced unchanged to
the caller; the call trace stops at the failing call, so no partial result
is returned and no call is retried. -/
theorem generation_error_fatal (tmpl : List Message → Bool → Str)
    (gen : Str → Nat → Nat → Except GenError Str) (prompt : Str) (e : GenError) :
    (gen (tmpl (personaMsgs (believer prompt)) true) 6 MAX_TOKENS = Except.error e →
      run_dialectical_tts tmpl gen prompt
        = (Except.error e, [⟨personaMsgs (believer prompt), 6, MAX_TOKENS⟩])) ∧
    (∀ o0, gen (tmpl (personaMsgs (believer prompt)) true) 6 MAX_TOKENS = Except.ok o0 →
      gen (tmpl (personaMsgs (logician prompt)) true) 7 MAX_TOKENS = Except.error e →
      run_dialectical_tts tmpl gen prompt
        = (Except.error e, [⟨personaMsgs (believer prompt), 6, MAX_TOKENS⟩,
            ⟨personaMsgs (logician prompt), 7, MAX_TOKENS⟩])) ∧
    (∀ o0 o1, gen (tmpl (personaMsgs (believer prompt)) true) 6 MAX_TOKENS = Except.ok o0 →
      gen (tmpl (personaMsgs (logician prompt)) true) 7 MAX_TOKENS = Except.ok o1 →
      gen (tmpl (personaMsgs (contrarian prompt)) true) 9 MAX_TOKENS = Except.error e →
      run_dialectical_tts tmpl gen prompt = (Except.error e, personaCalls prompt)) ∧
    (∀ o0 o1 o2, gen (tmpl (personaMsgs (believer prompt)) true) 6 MAX_TOKENS = Except.ok o0 →
      gen (tmpl (personaMsgs (logician prompt)) true) 7 MAX_TOKENS = Except.ok o1 →
      gen (tmpl (personaMsgs (contrarian prompt)) true) 9 MAX_TOKENS = Except.ok o2 →
      ¬ (removeSpaces (extract_answer o0) = removeSpaces (extract_answer o1) ∧
         removeSpaces (extract_answer o0) = removeSpaces (extract_answer o2)) →
      gen (tmpl (arbiterMsgs o0 o1 o2) true) 1 MAX_TOKENS = Except.error e →
      run_dialectical_tts tmpl gen prompt
        = (Except.error e, personaCalls prompt ++ [⟨arbiterMsgs o0 o1 o2, 1, MAX_TOKENS⟩])) := by
  refine ⟨?_, ?_, ?_, ?_⟩
  · intro hf
    unfold run_dialectical_tts
    simp only [hf]
  · intro o0 hk0 hf
    unfold run_dialectical_tts
    simp only [hk0, hf]
  · intro o0 o1 hk0 hk1 hf
    unfold run_dialectical_tts
    simp only [hk0, hk1, hf, personaCalls]
  · intro o0 o1 o2 hk0 hk1 hk2 hne hf
    rw [run_ok3 tmpl gen prompt o0 o1 o2 hk0 hk1 hk2,
      if_neg (fun h => hne ((dedup3 _ _ _).mp h)), hf]

theorem generation_error_fatal_witness :
    run_dialectical_tts tmplW genBoom [] =
      (Except.error ("boom".toList),
       [⟨personaMsgs (believer []), 6, MAX_TOKENS⟩,
        ⟨personaMsgs (logician []), 7, MAX_TOKENS⟩]) :=
  (generation_error_fatal tmplW genBoom [] ("boom".toList)).2.1
    ("\\boxed\x7b1/3\x7d".toList) rfl rfl

/-- C10: the resolver never takes the equivalence-oracle judge slow path:
the consensus decision is exact equality of the space-stripped extracted
answers, the run makes exactly 3 generation calls on agreement and exactly 4
on disagreement, and every call it makes uses the shared 4096-token budget
(the judge call would use 10). -/
theorem resolver_call_budget (tmpl : List Message → Bool → Str)
    (gen : Str → Nat → Nat → Except GenError Str) (prompt o0 o1 o2 : Str)
    (h0 : gen (tmpl (personaMsgs (believer prompt)) true) 6 MAX_TOKENS = Except.ok o0)
    (h1 : gen (tmpl (personaMsgs (logician prompt)) true) 7 MAX_TOKENS = Except.ok o1)
    (h2 : gen (tmpl (personaMsgs (contrarian prompt)) true) 9 MAX_TOKENS = Except.ok o2) :
    ((removeSpaces (extract_answer o0) = removeSpaces (extract_answer o1) ∧
      removeSpaces (extract_answer o0) = removeSpaces (extract_answer o2)) →
      (run_dialectical_tts tmpl gen prompt).2.length = 3) ∧
    (¬ (removeSpaces (extract_answer o0) = removeSpaces (extract_answer o1) ∧
        removeSpaces (extract_answer o0) = removeSpaces (extract_answer o2)) →
      (run_dialectical_tts tmpl gen prompt).2.length = 4) ∧
    (∀ call ∈ (run_dialectical_tts tmpl gen prompt).2,
      call.maxTokens = MAX_TOKENS ∧ call.maxTokens ≠ 10) := by
  rw [run_ok3 tmpl gen prompt o0 o1 o2 h0 h1 h2]
  by_cases hu : removeSpaces (extract_answer o0) = removeSpaces (extract_answer o1) ∧
      removeSpaces (extract_answer o0) = removeSpaces (extract_answer o2)
  · rw [if_pos ((dedup3 _ _ _).mpr hu)]
    refine ⟨fun _ => by simp [personaCalls], fun hne => absurd hu hne, ?_⟩
    intro call hc
    simp [personaCalls] at hc
    rcases hc with h | h | h <;> subst h <;> exact ⟨rfl, by simp [MAX_TOKENS]⟩
  · rw [if_neg (fun h => hu ((dedup3 _ _ _).mp h))]
    cases hg : gen (tmpl (arbiterMsgs o0 o1 o2) true) 1 MAX_TOKENS with
    | error e =>
      refine ⟨fun hagr => absurd hagr hu, fun _ => by simp [personaCalls], ?_⟩
      intro call hc
      simp [personaCalls] at hc
      rcases hc with h | h | h | h <;> subst h <;> exact ⟨rfl, by simp [MAX_TOKENS]⟩
    | ok fo =>
      refine ⟨fun hagr => absurd hagr hu, fun _ => by simp [personaCalls], ?_⟩
      intro call hc
      simp [personaCalls] at hc
      rcases hc with h | h | h | h <;> subst h <;> exact ⟨rfl, by simp [MAX_TOKENS]⟩

theorem resolver_call_budget_witness :
    (run_dialectical_tts tmplW genW3 []).2.length = 4 :=
  (resolver_call_budget tmplW genW3 [] ("1/3".toList) ("2/3".toList) ("1/2".toList)
    rfl rfl rfl).2.1 (by decide)


end DTTS
